import Mathlib

/-!
Shallow embedding of the kk_warehouse_tool inventory dashboard (src/app.py).

The application is a Streamlit front end over a SQLite database with two
tables: `inventory` (items) and `categories`.  The data-access behaviour
lives in the tab handlers of app.py; each handler below is translated into
a pure function over an explicit `Store` state.  SQLite rows are kept in
insertion order (autoincrement rowid), so each table is a Lean `List`.
-/

/-- A row of the `inventory` table (app.py lines 19-32).  The surrogate
`id` column is an autoincrement key with no behavioural role; insertion
order is kept by the list order instead.  `current_stock`/`safe_stock`
are SQLite INTEGERs, embedded as `Int`. -/
structure Item where
  name : String
  category : String
  brand : String
  itemNo : String
  spec : String
  location : String
  currentStock : Int
  safeStock : Int
  unit : String
deriving Repr, DecidableEq

/-- Error outcomes of the handlers.  `validationError` is the handler
rejecting input (`st.warning`/`st.error` without writing);
`insufficientStockError` is the stock-out guard message (app.py line 188);
`indexError` is the uncaught Python IndexError raised by
`df[df["name"] == item_name]["current_stock"].values[0]` when no row
matches (app.py line 179). -/
inductive StoreError where
  | validationError
  | insufficientStockError
  | indexError
deriving Repr, DecidableEq

/-- Direction of a stock adjustment: the two buttons of the 领用入库 tab
(stock-in at app.py line 170, stock-out at line 178). -/
inductive Direction where
  | dirIn
  | dirOut
deriving Repr, DecidableEq

/-- Whole database state: the `inventory` table and the `categories` table
(category rows carry only a name), each in insertion order. -/
structure Store where
  inventory : List Item
  categories : List String
deriving Repr, DecidableEq

/-- A store with both tables empty (fresh database before `init_db`). -/
def emptyStore : Store := { inventory := [], categories := [] }

/-- `listItems`: `get_data("inventory")` — all item rows in stored order
(app.py line 56-58). -/
def listItems (s : Store) : List Item := s.inventory

/-- `listCategories`: `get_data("categories")` — all category names in
stored order (app.py line 56-58). -/
def listCategories (s : Store) : List String := s.categories

/-- The low-stock predicate: `df["current_stock"] <= df["safe_stock"]`
(app.py line 88), also re-evaluated per row in `highlight_low_stock`
(app.py line 150). -/
def isLowStock (it : Item) : Bool := it.currentStock ≤ it.safeStock

/-- `low_stock_df = df[df["current_stock"] <= df["safe_stock"]]`
(app.py line 88): pandas boolean-mask filtering keeps row order. -/
def lowStockItems (items : List Item) : List Item := items.filter isLowStock

/-- The stock-out handler's read of the selected item's stock:
`df[df["name"] == item_name]["current_stock"].values[0]` (app.py
line 179) — filter the rows by name, take the first value if any. -/
def getStock (s : Store) (name : String) : Option Int :=
  ((s.inventory.filter (fun it => it.name == name)).head?).map Item.currentStock

/-- `UPDATE inventory SET current_stock = current_stock + ? WHERE name = ?`
(app.py lines 171-174): add `num` to every row whose name matches. -/
def stockInUpdate (s : Store) (name : String) (num : Int) : Store :=
  { s with inventory := s.inventory.map (fun it =>
      if it.name == name then { it with currentStock := it.currentStock + num } else it) }

/-- `UPDATE inventory SET current_stock = current_stock - ? WHERE name = ?`
(app.py lines 181-184): subtract `num` from every row whose name matches. -/
def stockOutUpdate (s : Store) (name : String) (num : Int) : Store :=
  { s with inventory := s.inventory.map (fun it =>
      if it.name == name then { it with currentStock := it.currentStock - num } else it) }

/-- The 确认领用 (stock-out) button handler (app.py lines 178-188): read
the selected name's current stock from the loaded frame (an uncaught
IndexError when no row matches), then run the `-` UPDATE only when
`current >= num`, otherwise report insufficient stock and write nothing. -/
def stockOutHandler (s : Store) (name : String) (num : Int) : Except StoreError Store :=
  match (s.inventory.filter (fun it => it.name == name)).head? with
  | none => .error .indexError
  | some it =>
    if it.currentStock ≥ num then .ok (stockOutUpdate s name num)
    else .error .insufficientStockError

/-- `adjustStock` packages the two buttons behind the spec's single entry
point: `IN` is the unconditional `+` UPDATE (app.py lines 170-176),
`OUT` is the guarded handler above. -/
def adjustStock (s : Store) (name : String) (num : Int) (dir : Direction) :
    Except StoreError Store :=
  match dir with
  | .dirIn => .ok (stockInUpdate s name num)
  | .dirOut => stockOutHandler s name num

/-- Build the row the INSERT statement writes, column for column (app.py
lines 231-237). -/
def mkItem (name category brand itemNo spec location : String)
    (curr safe : Int) (unit : String) : Item :=
  { name := name, category := category, brand := brand, itemNo := itemNo, spec := spec,
    location := location, currentStock := curr, safeStock := safe, unit := unit }

/-- `addItem`: the 新增用品 form submit handler (app.py lines 225-239).
Rejects an empty name (`if not name`) and an exact, case-sensitive
duplicate (`name in existing_items`, read from the inventory table at
line 198); otherwise the INSERT appends a fresh row. -/
def addItem (s : Store) (name category brand itemNo spec location : String)
    (curr safe : Int) (unit : String) : Except StoreError Store :=
  if name = "" then .error .validationError
  else if (s.inventory.map Item.name).contains name then .error .validationError
  else .ok { s with inventory := s.inventory ++
      [mkItem name category brand itemNo spec location curr safe unit] }

/-- The add-item form as reachable through its widgets: the stock inputs
are `st.number_input(..., min_value=0, ...)` (app.py lines 219-220), so
the values handed to the submit handler are non-negative integers,
embedded as `Nat`. -/
def addItemWidget (s : Store) (name category brand itemNo spec location : String)
    (curr safe : Nat) (unit : String) : Except StoreError Store :=
  addItem s name category brand itemNo spec location (curr : Int) (safe : Int) unit

/-- `deleteItem`: `DELETE FROM inventory WHERE name = ?` (app.py
line 291) — drop every matching row, unconditionally. -/
def deleteItem (s : Store) (name : String) : Store :=
  { s with inventory := s.inventory.filter (fun it => !(it.name == name)) }

/-- `addCategory`: the 添加分类 handler (app.py lines 250-257).
`if new_cat and new_cat not in existing_cats` — insert only when the name
is non-empty (Python truthiness of a string) and not an exact,
case-sensitive match of an existing name; otherwise report an error. -/
def addCategory (s : Store) (name : String) : Except StoreError Store :=
  if name ≠ "" ∧ ¬ s.categories.contains name then
    .ok { s with categories := s.categories ++ [name] }
  else .error .validationError

/-- `deleteCategory`: `DELETE FROM categories WHERE name = ?` (app.py
line 271) — drop every matching category row; the inventory table is not
touched (the commented-out reassignment at line 272-273 is not executed). -/
def deleteCategory (s : Store) (name : String) : Store :=
  { s with categories := s.categories.filter (fun c => !(c == name)) }

/-- The default categories seeded by `init_db` (app.py line 45). -/
def defaultCats : List String := ["办公用品", "实验用品", "日常耗材"]

/-- `init_db` seeding step (app.py lines 43-46): when
`SELECT COUNT(*) FROM categories` is 0, insert the default names;
otherwise leave the table alone.  (Table creation is `IF NOT EXISTS` and
adds no rows.) -/
def initDb (s : Store) : Store :=
  if s.categories.length = 0 then { s with categories := s.categories ++ defaultCats }
  else s

/-- One user action against the store, carrying exactly the values its
widgets can produce: item stock inputs are `number_input(min_value=0)`
(`Nat`), and the adjustment quantity is `number_input(min_value=1)`
(app.py line 166), embedded as a `Nat` (a superset of the reachable
positive values). -/
inductive Op where
  | opAddItem (name category brand itemNo spec location : String)
      (curr safe : Nat) (unit : String)
  | opAdjust (name : String) (num : Nat) (dir : Direction)
  | opDeleteItem (name : String)
  | opAddCategory (name : String)
  | opDeleteCategory (name : String)
deriving Repr, DecidableEq

/-- Outcome of one write handler against the running store: a handler
that errors writes nothing, so the store keeps its pre-call state (the
UPDATE/INSERT is simply never executed). -/
def runWrite (s : Store) (r : Except StoreError Store) : Store :=
  match r with
  | .ok s' => s'
  | .error _ => s

/-- Run one user action. -/
def applyOp (s : Store) : Op → Store
  | .opAddItem n c b i sp l cu sa u => runWrite s (addItemWidget s n c b i sp l cu sa u)
  | .opAdjust n q d => runWrite s (adjustStock s n (q : Int) d)
  | .opDeleteItem n => deleteItem s n
  | .opAddCategory n => runWrite s (addCategory s n)
  | .opDeleteCategory n => deleteCategory s n

/-- Run a sequence of user actions left to right. -/
def applyOps (s : Store) (ops : List Op) : Store := ops.foldl applyOp s

/-- Invariant: every stored item has a non-negative current stock. -/
def stocksNonNeg (s : Store) : Prop := ∀ it ∈ s.inventory, 0 ≤ it.currentStock

instance : DecidablePred stocksNonNeg := fun s =>
  inferInstanceAs (Decidable (∀ it ∈ s.inventory, 0 ≤ it.currentStock))

/-- Invariant: item names are pairwise distinct. -/
def itemNamesUnique (s : Store) : Prop := (s.inventory.map Item.name).Nodup

instance : DecidablePred itemNamesUnique := fun s =>
  inferInstanceAs (Decidable ((s.inventory.map Item.name).Nodup))

/-- Invariant: category names are pairwise distinct. -/
def catNamesUnique (s : Store) : Prop := s.categories.Nodup

instance : DecidablePred catNamesUnique := fun s =>
  inferInstanceAs (Decidable (s.categories.Nodup))

/-- Concrete sample row from the spec's test scenario (§8): Gloves,
category Lab, currentStock 10, safeStock 5. -/
def glovesItem : Item :=
  { name := "Gloves", category := "Lab", brand := "", itemNo := "", spec := "",
    location := "", currentStock := 10, safeStock := 5, unit := "个" }

/-- A concrete one-item store used as a witness input. -/
def glovesStore : Store := { inventory := [glovesItem], categories := ["Lab"] }

/-! ### Helper lemmas about row updates and row filters -/

/-- A conditional per-row update that rewrites only non-key fields leaves
every row's name unchanged. -/
theorem update_preserves_name (n : String) (g : Item → Item)
    (hg : ∀ it, (g it).name = it.name) (it : Item) :
    (if it.name == n then g it else it).name = it.name := by
  by_cases h : it.name == n <;> simp [h, hg]

/-- A name-preserving conditional update does not change the list of names. -/
theorem map_name_map_update (n : String) (g : Item → Item)
    (hg : ∀ it, (g it).name = it.name) :
    ∀ l : List Item,
      (l.map (fun it => if it.name == n then g it else it)).map Item.name = l.map Item.name
  | [] => rfl
  | a :: l => by
    simp only [List.map_cons, map_name_map_update n g hg l, List.cons.injEq, and_true]
    exact update_preserves_name n g hg a

/-- Filtering by name commutes with a name-preserving conditional update:
the rows selected by name in the updated table are the updated versions of
the rows selected in the original table. -/
theorem filter_name_map_update (n : String) (g : Item → Item)
    (hg : ∀ it, (g it).name = it.name) :
    ∀ l : List Item,
      (l.map (fun it => if it.name == n then g it else it)).filter (fun it => it.name == n)
        = (l.filter (fun it => it.name == n)).map g
  | [] => rfl
  | a :: l => by
    have ih := filter_name_map_update n g hg l
    cases h : a.name == n with
    | true =>
      have hga : ((g a).name == n) = true := by rw [hg a]; exact h
      rw [List.map_cons, if_pos h, List.filter_cons, if_pos hga, ih,
        List.filter_cons, if_pos h, List.map_cons]
    | false =>
      have h' : ¬((a.name == n) = true) := by simp [h]
      rw [List.map_cons, if_neg h', List.filter_cons, if_neg h', ih,
        List.filter_cons, if_neg h']

/-- An UPDATE whose WHERE clause matches no row leaves the table unchanged. -/
theorem map_update_of_not_mem (n : String) (g : Item → Item) :
    ∀ l : List Item, (∀ it ∈ l, it.name ≠ n) →
      l.map (fun it => if it.name == n then g it else it) = l
  | [], _ => rfl
  | a :: l, h => by
    have ha : ¬((a.name == n) = true) := by simp [h a (List.mem_cons_self a l)]
    simp only [List.map_cons, if_neg ha,
      map_update_of_not_mem n g l (fun it hit => h it (List.mem_cons_of_mem a hit))]

/-- A DELETE whose WHERE clause matches no row leaves the table unchanged. -/
theorem filter_keep_of_not_mem (n : String) :
    ∀ l : List Item, (∀ it ∈ l, it.name ≠ n) →
      l.filter (fun it => !(it.name == n)) = l
  | [], _ => rfl
  | a :: l, h => by
    have ha : (!(a.name == n)) = true := by simp [h a (List.mem_cons_self a l)]
    simp only [List.filter_cons, if_pos ha,
      filter_keep_of_not_mem n l (fun it hit => h it (List.mem_cons_of_mem a hit))]

/-- Selecting by name when no row matches yields the empty selection. -/
theorem filter_name_eq_nil (n : String) (l : List Item) (h : ∀ it ∈ l, it.name ≠ n) :
    l.filter (fun it => it.name == n) = [] := by
  rw [List.filter_eq_nil_iff]
  intro it hit
  simp [h it hit]

/-- With pairwise-distinct names (the UNIQUE constraint on
`inventory.name`), selecting by the name of a stored row yields exactly
that row. -/
theorem filter_name_eq_singleton (n : String) (it : Item) :
    ∀ l : List Item, (l.map Item.name).Nodup → it ∈ l → it.name = n →
      l.filter (fun i => i.name == n) = [it]
  | [], _, hmem, _ => absurd hmem (List.not_mem_nil it)
  | a :: l, hnd, hmem, hn => by
    simp only [List.map_cons, List.nodup_cons] at hnd
    obtain ⟨hna, hnd'⟩ := hnd
    rcases List.mem_cons.mp hmem with rfl | hmem'
    · rw [List.filter_cons, if_pos (by simp [hn])]
      suffices hnil : l.filter (fun i => i.name == n) = [] by rw [hnil]
      exact filter_name_eq_nil n l (fun x hx hxn => hna (by
        rw [hn, ← hxn]; exact List.mem_map_of_mem Item.name hx))
    · have han : a.name ≠ n := fun he =>
        hna (by rw [he, ← hn]; exact List.mem_map_of_mem Item.name hmem')
      rw [List.filter_cons, if_neg (by simp [han])]
      exact filter_name_eq_singleton n it l hnd' hmem' hn

/-- Reading a name's stock after a stock-in UPDATE on that name:
the read sees the old value plus the added quantity. -/
theorem getStock_stockInUpdate (s : Store) (n : String) (q : Int) :
    getStock (stockInUpdate s n q) n = (getStock s n).map (fun c => c + q) := by
  show ((s.inventory.map (fun it => if it.name == n
        then { it with currentStock := it.currentStock + q } else it)).filter
          (fun it => it.name == n)).head?.map Item.currentStock
      = (((s.inventory.filter (fun it => it.name == n)).head?).map Item.currentStock).map
          (fun c => c + q)
  rw [filter_name_map_update n (fun it => { it with currentStock := it.currentStock + q })
    (fun _ => rfl), List.head?_map]
  cases (s.inventory.filter (fun it => it.name == n)).head? <;> rfl

/-- Reading a name's stock after a stock-out UPDATE on that name:
the read sees the old value minus the removed quantity. -/
theorem getStock_stockOutUpdate (s : Store) (n : String) (q : Int) :
    getStock (stockOutUpdate s n q) n = (getStock s n).map (fun c => c - q) := by
  show ((s.inventory.map (fun it => if it.name == n
        then { it with currentStock := it.currentStock - q } else it)).filter
          (fun it => it.name == n)).head?.map Item.currentStock
      = (((s.inventory.filter (fun it => it.name == n)).head?).map Item.currentStock).map
          (fun c => c - q)
  rw [filter_name_map_update n (fun it => { it with currentStock := it.currentStock - q })
    (fun _ => rfl), List.head?_map]
  cases (s.inventory.filter (fun it => it.name == n)).head? <;> rfl

/-! ### Claim theorems -/

/-- C1: the low-stock predicate holds exactly when
`current_stock <= safe_stock` (equality counts as low, and any item with
`current_stock > safe_stock` is not low), and `low_stock_df` is exactly
the rows satisfying the predicate, in input order (a sublist). -/
theorem lowStock_classification (it : Item) (items : List Item) :
    (isLowStock it = true ↔ it.currentStock ≤ it.safeStock)
    ∧ (it.currentStock > it.safeStock → isLowStock it = false)
    ∧ (lowStockItems items).Sublist items
    ∧ (∀ x, x ∈ lowStockItems items ↔ x ∈ items ∧ x.currentStock ≤ x.safeStock) := by
  refine ⟨by simp [isLowStock], ?_, List.filter_sublist items, ?_⟩
  · intro h
    simp only [isLowStock, decide_eq_false_iff_not, not_le]
    exact h
  · intro x
    simp [lowStockItems, List.mem_filter, isLowStock]

/-- Witness for C1 at a concrete item: Gloves with stock 10 above its
threshold 5 is not flagged low. -/
theorem lowStock_classification_witness :
    isLowStock glovesItem = false :=
  (lowStock_classification glovesItem []).2.1 (by decide)

/-- C9: on a fresh store (empty `categories` table) `init_db` seeds the
three default category names, which `listCategories` then returns in
insertion order; on a non-empty table it adds nothing, so initializing
twice never duplicates the defaults. -/
theorem initDb_seeding :
    (∀ s : Store, s.categories = [] → listCategories (initDb s) = defaultCats)
    ∧ (∀ s : Store, s.categories ≠ [] → initDb s = s)
    ∧ (∀ s : Store, initDb (initDb s) = initDb s) := by
  refine ⟨?_, ?_, ?_⟩
  · intro s h
    simp [initDb, listCategories, h]
  · intro s h
    simp only [initDb, List.length_eq_zero, h, if_false]
  · intro s
    by_cases h : s.categories = []
    · simp [initDb, h, defaultCats]
    · simp [initDb, List.length_eq_zero, h]

/-- Witness for C9 on the fresh (empty) store. -/
theorem initDb_seeding_witness :
    listCategories (initDb emptyStore) = defaultCats :=
  initDb_seeding.1 emptyStore rfl

/-- C10: deleting a category removes only the matching category row:
the `inventory` table is untouched, so every item — including every item
whose `category` field names the deleted category — keeps all its fields,
and the deletion succeeds unconditionally (it is a total operation,
never a `ConflictError`). -/
theorem deleteCategory_frame (s : Store) (name : String) :
    (deleteCategory s name).inventory = s.inventory
    ∧ name ∉ (deleteCategory s name).categories
    ∧ (∀ c ∈ s.categories, c ≠ name → c ∈ (deleteCategory s name).categories)
    ∧ (∀ it ∈ s.inventory, it.category = name → it ∈ (deleteCategory s name).inventory) := by
  refine ⟨rfl, ?_, ?_, ?_⟩
  · simp [deleteCategory, List.mem_filter]
  · intro c hc hne
    simp [deleteCategory, List.mem_filter, hc, hne]
  · intro it hit _
    exact hit

/-- Witness for C10: deleting the referenced category "Lab" on the
concrete one-item store leaves the inventory untouched. -/
theorem deleteCategory_frame_witness :
    (deleteCategory glovesStore "Lab").inventory = glovesStore.inventory :=
  (deleteCategory_frame glovesStore "Lab").1

/-- Unfolding equation for the stock-out handler when the name read finds
a row. -/
theorem stockOutHandler_eq_some (s : Store) (n : String) (num : Int) (it : Item)
    (h : (s.inventory.filter (fun i => i.name == n)).head? = some it) :
    stockOutHandler s n num =
      if it.currentStock ≥ num then .ok (stockOutUpdate s n num)
      else .error .insufficientStockError := by
  unfold stockOutHandler
  rw [h]

/-- Unfolding equation for the stock-out handler when the name read finds
no row. -/
theorem stockOutHandler_eq_none (s : Store) (n : String) (num : Int)
    (h : (s.inventory.filter (fun i => i.name == n)).head? = none) :
    stockOutHandler s n num = .error .indexError := by
  unfold stockOutHandler
  rw [h]

/-- A successful stock read names a stored row bearing that stock value. -/
theorem getStock_eq_some (s : Store) (n : String) (c : Int)
    (h : getStock s n = some c) :
    ∃ it, (s.inventory.filter (fun i => i.name == n)).head? = some it
      ∧ it.currentStock = c := by
  unfold getStock at h
  cases hh : (s.inventory.filter (fun i => i.name == n)).head? with
  | none => rw [hh] at h; cases h
  | some it =>
    rw [hh] at h
    simp only [Option.map_some', Option.some.injEq] at h
    exact ⟨it, rfl, h⟩

/-- A stock-out UPDATE exactly cancels a prior stock-in UPDATE of the
same quantity on the same name, row for row. -/
theorem stockOut_stockIn_cancel (s : Store) (n : String) (q : Int) :
    stockOutUpdate (stockInUpdate s n q) n q = s := by
  cases s with
  | mk inv cats =>
    simp only [stockInUpdate, stockOutUpdate, Store.mk.injEq, and_true]
    rw [List.map_map]
    have key : ∀ a ∈ inv,
        ((fun it : Item => if it.name == n
            then { it with currentStock := it.currentStock - q } else it) ∘
          (fun it : Item => if it.name == n
            then { it with currentStock := it.currentStock + q } else it)) a = id a := by
      intro a _
      cases a with
      | mk nm cat br no sp loc cs ss un =>
        by_cases h : (nm == n) = true
        · have h' : nm = n := by simpa using h
          subst h'
          simp
        · have h' : ¬(nm = n) := by simpa using h
          simp [h']
    rw [List.map_congr_left key, List.map_id]

/-- C2: stock-out on an existing item with positive quantity `q` fails
with the insufficient-stock error when `q` exceeds the current stock —
writing nothing, so the store keeps its pre-call state — and otherwise
succeeds, the item's stock becoming `current - q` while names, the
category table and all other-named rows are untouched. -/
theorem stockOut_guard (s : Store) (name : String) (q c : Int)
    (hc : getStock s name = some c) (hq : 0 < q) :
    (c < q → adjustStock s name q .dirOut = .error .insufficientStockError)
    ∧ (q ≤ c → ∃ s', adjustStock s name q .dirOut = .ok s'
        ∧ getStock s' name = some (c - q)
        ∧ s'.inventory.map Item.name = s.inventory.map Item.name
        ∧ s'.categories = s.categories
        ∧ (∀ it ∈ s.inventory, it.name ≠ name → it ∈ s'.inventory)) := by
  obtain ⟨it0, hh, hcs⟩ := getStock_eq_some s name c hc
  constructor
  · intro hlt
    show stockOutHandler s name q = .error .insufficientStockError
    rw [stockOutHandler_eq_some s name q it0 hh, if_neg (by rw [hcs]; omega)]
  · intro hle
    refine ⟨stockOutUpdate s name q, ?_, ?_, ?_, rfl, ?_⟩
    · show stockOutHandler s name q = .ok (stockOutUpdate s name q)
      rw [stockOutHandler_eq_some s name q it0 hh, if_pos (by rw [hcs]; omega)]
    · rw [getStock_stockOutUpdate, hc]
      rfl
    · exact map_name_map_update name
        (fun it => { it with currentStock := it.currentStock - q }) (fun _ => rfl) s.inventory
    · intro it hit hne
      have hne' : ¬((it.name == name) = true) := by simp [hne]
      have hid : (if it.name == name
          then { it with currentStock := it.currentStock - q } else it) = it := if_neg hne'
      exact hid ▸ List.mem_map_of_mem _ hit

/-- Witness for C2 on the spec's concrete scenario: withdrawing 20 from
Gloves (stock 10) fails with the insufficient-stock error. -/
theorem stockOut_guard_witness :
    adjustStock glovesStore "Gloves" 20 .dirOut = .error .insufficientStockError :=
  (stockOut_guard glovesStore "Gloves" 20 10 (by decide) (by decide)).1 (by decide)

/-- C6: on an existing item (whose stored stock is non-negative, as every
reachable store state guarantees) and any positive quantity `q`, stock-in
always succeeds and raises the stock by `q`, and the following stock-out
of the same `q` succeeds and returns the store to exactly its original
state (round-trip identity). -/
theorem stock_roundTrip (s : Store) (name : String) (q c : Int)
    (hc : getStock s name = some c) (h0 : 0 ≤ c) (hq : 0 < q) :
    ∃ s1, adjustStock s name q .dirIn = .ok s1
      ∧ getStock s1 name = some (c + q)
      ∧ adjustStock s1 name q .dirOut = .ok s := by
  refine ⟨stockInUpdate s name q, rfl, ?_, ?_⟩
  · rw [getStock_stockInUpdate, hc]
    rfl
  · have hg1 : getStock (stockInUpdate s name q) name = some (c + q) := by
      rw [getStock_stockInUpdate, hc]
      rfl
    obtain ⟨it1, hh1, hcs1⟩ := getStock_eq_some (stockInUpdate s name q) name (c + q) hg1
    show stockOutHandler (stockInUpdate s name q) name q = .ok s
    rw [stockOutHandler_eq_some (stockInUpdate s name q) name q it1 hh1,
      if_pos (by rw [hcs1]; omega), stockOut_stockIn_cancel]

/-- Witness for C6: stock-in 5 then stock-out 5 on Gloves (stock 10)
returns the store to its original state. -/
theorem stock_roundTrip_witness :
    ∃ s1, adjustStock glovesStore "Gloves" 5 .dirIn = .ok s1
      ∧ getStock s1 "Gloves" = some (10 + 5)
      ∧ adjustStock s1 "Gloves" 5 .dirOut = .ok glovesStore :=
  stock_roundTrip glovesStore "Gloves" 5 10 (by decide) (by decide) (by decide)

/-- A stock-in UPDATE whose name matches no stored row is a no-op. -/
theorem stockInUpdate_of_absent (s : Store) (n : String) (q : Int)
    (habs : ∀ it ∈ s.inventory, it.name ≠ n) : stockInUpdate s n q = s := by
  cases s with
  | mk inv cats =>
    simp only [stockInUpdate, Store.mk.injEq, and_true]
    exact map_update_of_not_mem n
      (fun it => { it with currentStock := it.currentStock + q }) inv habs

/-- A DELETE whose name matches no stored row is a no-op. -/
theorem deleteItem_of_absent (s : Store) (n : String)
    (habs : ∀ it ∈ s.inventory, it.name ≠ n) : deleteItem s n = s := by
  cases s with
  | mk inv cats =>
    simp only [deleteItem, Store.mk.injEq, and_true]
    exact filter_keep_of_not_mem n inv habs

/-- Every handler keeps the item-name column duplicate-free: the name
check of the add form, and name-preserving or row-removing writes
everywhere else, maintain the UNIQUE discipline on `inventory.name`. -/
theorem namesUnique_applyOp (s : Store) (op : Op) (hnd : itemNamesUnique s) :
    itemNamesUnique (applyOp s op) := by
  cases op with
  | opAddItem n c b i sp l cu sa u =>
    show itemNamesUnique (runWrite s (addItemWidget s n c b i sp l cu sa u))
    by_cases h1 : n = ""
    · simp only [addItemWidget, addItem, if_pos h1]
      exact hnd
    · by_cases h2 : (s.inventory.map Item.name).contains n = true
      · simp only [addItemWidget, addItem, if_neg h1, if_pos h2]
        exact hnd
      · simp only [addItemWidget, addItem, if_neg h1, if_neg h2]
        show ((s.inventory ++
          [mkItem n c b i sp l (cu : Int) (sa : Int) u]).map Item.name).Nodup
        rw [List.map_append, List.nodup_append]
        refine ⟨hnd, List.nodup_singleton _, ?_⟩
        intro a ha hb
        simp only [List.map_cons, List.map_nil, List.mem_singleton, mkItem] at hb
        subst hb
        exact h2 (List.elem_iff.mpr ha)
  | opAdjust n q d =>
    cases d with
    | dirIn =>
      show itemNamesUnique (stockInUpdate s n (q : Int))
      show ((s.inventory.map (fun it => if it.name == n
          then { it with currentStock := it.currentStock + (q : Int) }
          else it)).map Item.name).Nodup
      rw [map_name_map_update n
        (fun it => { it with currentStock := it.currentStock + (q : Int) })
        (fun _ => rfl) s.inventory]
      exact hnd
    | dirOut =>
      show itemNamesUnique (runWrite s (stockOutHandler s n (q : Int)))
      cases hh : (s.inventory.filter (fun it => it.name == n)).head? with
      | none =>
        rw [stockOutHandler_eq_none s n (q : Int) hh]
        exact hnd
      | some it0 =>
        rw [stockOutHandler_eq_some s n (q : Int) it0 hh]
        by_cases hge : it0.currentStock ≥ (q : Int)
        · rw [if_pos hge]
          show ((s.inventory.map (fun it => if it.name == n
              then { it with currentStock := it.currentStock - (q : Int) }
              else it)).map Item.name).Nodup
          rw [map_name_map_update n
            (fun it => { it with currentStock := it.currentStock - (q : Int) })
            (fun _ => rfl) s.inventory]
          exact hnd
        · rw [if_neg hge]
          exact hnd
  | opDeleteItem n =>
    show (((s.inventory.filter (fun it => !(it.name == n))).map Item.name)).Nodup
    exact (List.Sublist.map Item.name (List.filter_sublist s.inventory)).nodup hnd
  | opAddCategory n =>
    show itemNamesUnique (runWrite s (addCategory s n))
    by_cases h : n ≠ "" ∧ ¬ s.categories.contains n = true
    · simp only [addCategory, if_pos h]
      exact hnd
    · simp only [addCategory, if_neg h]
      exact hnd
  | opDeleteCategory n =>
    exact hnd

/-- Every handler keeps the category-name column duplicate-free. -/
theorem catNamesUnique_applyOp (s : Store) (op : Op) (hnd : catNamesUnique s) :
    catNamesUnique (applyOp s op) := by
  cases op with
  | opAddItem n c b i sp l cu sa u =>
    show catNamesUnique (runWrite s (addItemWidget s n c b i sp l cu sa u))
    by_cases h1 : n = ""
    · simp only [addItemWidget, addItem, if_pos h1]
      exact hnd
    · by_cases h2 : (s.inventory.map Item.name).contains n = true
      · simp only [addItemWidget, addItem, if_neg h1, if_pos h2]
        exact hnd
      · simp only [addItemWidget, addItem, if_neg h1, if_neg h2]
        exact hnd
  | opAdjust n q d =>
    cases d with
    | dirIn => exact hnd
    | dirOut =>
      show catNamesUnique (runWrite s (stockOutHandler s n (q : Int)))
      cases hh : (s.inventory.filter (fun it => it.name == n)).head? with
      | none =>
        rw [stockOutHandler_eq_none s n (q : Int) hh]
        exact hnd
      | some it0 =>
        rw [stockOutHandler_eq_some s n (q : Int) it0 hh]
        by_cases hge : it0.currentStock ≥ (q : Int)
        · rw [if_pos hge]
          exact hnd
        · rw [if_neg hge]
          exact hnd
  | opDeleteItem n => exact hnd
  | opAddCategory n =>
    show catNamesUnique (runWrite s (addCategory s n))
    by_cases h : n ≠ "" ∧ ¬ s.categories.contains n = true
    · simp only [addCategory, if_pos h]
      show (s.categories ++ [n]).Nodup
      rw [List.nodup_append]
      refine ⟨hnd, List.nodup_singleton _, ?_⟩
      intro a ha hb
      rw [List.mem_singleton] at hb
      subst hb
      exact h.2 (List.elem_iff.mpr ha)
    · simp only [addCategory, if_neg h]
      exact hnd
  | opDeleteCategory n =>
    show (s.categories.filter (fun c => !(c == n))).Nodup
    exact (List.filter_sublist s.categories).nodup hnd

/-- Every handler keeps all current stocks non-negative: new rows carry
widget-constrained (non-negative) stock values, stock-in adds a
widget-constrained (non-negative) quantity, and stock-out is guarded by
the read of the selected row's stock — which, names being unique, is the
very row the UPDATE touches. -/
theorem stocksNonNeg_applyOp (s : Store) (op : Op)
    (hnd : itemNamesUnique s) (hnn : stocksNonNeg s) :
    stocksNonNeg (applyOp s op) := by
  cases op with
  | opAddItem n c b i sp l cu sa u =>
    show stocksNonNeg (runWrite s (addItemWidget s n c b i sp l cu sa u))
    by_cases h1 : n = ""
    · simp only [addItemWidget, addItem, if_pos h1]
      exact hnn
    · by_cases h2 : (s.inventory.map Item.name).contains n = true
      · simp only [addItemWidget, addItem, if_neg h1, if_pos h2]
        exact hnn
      · simp only [addItemWidget, addItem, if_neg h1, if_neg h2]
        intro it hit
        rcases List.mem_append.mp hit with hold | hnew
        · exact hnn it hold
        · rw [List.mem_singleton] at hnew
          subst hnew
          exact Int.natCast_nonneg cu
  | opAdjust n q d =>
    cases d with
    | dirIn =>
      show stocksNonNeg (stockInUpdate s n (q : Int))
      intro x hx
      obtain ⟨a, ha, rfl⟩ := List.mem_map.mp hx
      by_cases h : (a.name == n) = true
      · simp only [if_pos h]
        exact add_nonneg (hnn a ha) (Int.natCast_nonneg q)
      · simp only [if_neg h]
        exact hnn a ha
    | dirOut =>
      show stocksNonNeg (runWrite s (stockOutHandler s n (q : Int)))
      cases hh : (s.inventory.filter (fun it => it.name == n)).head? with
      | none =>
        rw [stockOutHandler_eq_none s n (q : Int) hh]
        exact hnn
      | some it0 =>
        rw [stockOutHandler_eq_some s n (q : Int) it0 hh]
        by_cases hge : it0.currentStock ≥ (q : Int)
        · rw [if_pos hge]
          intro x hx
          obtain ⟨a, ha, rfl⟩ := List.mem_map.mp hx
          by_cases h : (a.name == n) = true
          · simp only [if_pos h]
            have hone : s.inventory.filter (fun i => i.name == n) = [a] :=
              filter_name_eq_singleton n a s.inventory hnd ha (by simpa using h)
            rw [hone] at hh
            have ha0 : a = it0 := by injection hh
            subst ha0
            show 0 ≤ a.currentStock - (q : Int)
            omega
          · simp only [if_neg h]
            exact hnn a ha
        · rw [if_neg hge]
          exact hnn
  | opDeleteItem n =>
    intro x hx
    exact hnn x (List.mem_of_mem_filter hx)
  | opAddCategory n =>
    show stocksNonNeg (runWrite s (addCategory s n))
    by_cases h : n ≠ "" ∧ ¬ s.categories.contains n = true
    · simp only [addCategory, if_pos h]
      exact hnn
    · simp only [addCategory, if_neg h]
      exact hnn
  | opDeleteCategory n => exact hnn

/-- Both inventory invariants are preserved along any sequence of user
actions. -/
theorem invariants_applyOps (s : Store) (ops : List Op)
    (hnd : itemNamesUnique s) (hnn : stocksNonNeg s) :
    itemNamesUnique (applyOps s ops) ∧ stocksNonNeg (applyOps s ops) := by
  induction ops generalizing s with
  | nil => exact ⟨hnd, hnn⟩
  | cons op ops ih =>
    exact ih (applyOp s op) (namesUnique_applyOp s op hnd)
      (stocksNonNeg_applyOp s op hnd hnn)

/-- C3: the add form fails with a validation error when the entered name
is empty or exactly (case-sensitively) matches an existing item name,
writing nothing; otherwise it appends the row, after which the item list
contains the new name exactly once; and every handler keeps item names
unique. -/
theorem addItem_unique_names (s : Store) (n c b i sp l : String) (cu sa : Int) (u : String) :
    ((n = "" ∨ n ∈ s.inventory.map Item.name) →
        addItem s n c b i sp l cu sa u = .error .validationError)
    ∧ (n ≠ "" → n ∉ s.inventory.map Item.name →
        ∃ s', addItem s n c b i sp l cu sa u = .ok s'
          ∧ (listItems s').map Item.name = s.inventory.map Item.name ++ [n]
          ∧ ((listItems s').map Item.name).count n = 1
          ∧ (itemNamesUnique s → itemNamesUnique s'))
    ∧ (∀ op : Op, itemNamesUnique s → itemNamesUnique (applyOp s op)) := by
  refine ⟨?_, ?_, fun op hnd => namesUnique_applyOp s op hnd⟩
  · rintro (h1 | h2)
    · simp [addItem, h1]
    · have hc : (s.inventory.map Item.name).contains n = true := List.elem_iff.mpr h2
      by_cases h1 : n = ""
      · simp [addItem, h1]
      · simp only [addItem, if_neg h1, if_pos hc]
  · intro h1 h2
    have hc : ¬ (s.inventory.map Item.name).contains n = true :=
      fun hcc => h2 (List.elem_iff.mp hcc)
    refine ⟨{ s with inventory := s.inventory ++ [mkItem n c b i sp l cu sa u] },
      ?_, ?_, ?_, ?_⟩
    · rw [addItem, if_neg h1, if_neg hc]
    · show (s.inventory ++ [mkItem n c b i sp l cu sa u]).map Item.name
        = s.inventory.map Item.name ++ [n]
      rw [List.map_append]
      rfl
    · show ((s.inventory ++ [mkItem n c b i sp l cu sa u]).map Item.name).count n = 1
      rw [List.map_append, List.count_append, List.count_eq_zero.mpr h2]
      simp [mkItem]
    · intro hnd
      show ((s.inventory ++ [mkItem n c b i sp l cu sa u]).map Item.name).Nodup
      rw [List.map_append, List.nodup_append]
      refine ⟨hnd, List.nodup_singleton _, ?_⟩
      intro a ha hb
      simp only [List.map_cons, List.map_nil, List.mem_singleton, mkItem] at hb
      subst hb
      exact h2 ha

/-- Witness for C3: adding a second "Gloves" to the one-item store fails
with the validation error. -/
theorem addItem_unique_names_witness :
    addItem glovesStore "Gloves" "Lab" "" "" "" "" 3 2 "个" = .error .validationError :=
  (addItem_unique_names glovesStore "Gloves" "Lab" "" "" "" "" 3 2 "个").1
    (Or.inr (by decide))

/-- C4 counterexample: on the empty store, stock-in for the absent name
"Gloves" succeeds as a no-op (the UPDATE matches no row) and deleteItem
for the absent name succeeds as a no-op (the DELETE matches no row) —
neither fails with any error, so neither raises a NotFoundError. -/
theorem missingName_noFailure_counterexample :
    adjustStock emptyStore "Gloves" 1 .dirIn = .ok emptyStore
    ∧ deleteItem emptyStore "Gloves" = emptyStore := ⟨rfl, rfl⟩

/-- C4 amended: for a name matching no stored item, stock-in and
deleteItem succeed without changing the store (their SQL WHERE clause
matches nothing), while stock-out fails — not with a NotFoundError but
with the uncaught IndexError of the empty pandas selection — likewise
leaving the store unchanged. -/
theorem missingName_behavior (s : Store) (name : String) (q : Int)
    (habs : ∀ it ∈ s.inventory, it.name ≠ name) :
    adjustStock s name q .dirIn = .ok s
    ∧ adjustStock s name q .dirOut = .error .indexError
    ∧ deleteItem s name = s := by
  refine ⟨?_, ?_, ?_⟩
  · show Except.ok (stockInUpdate s name q) = Except.ok s
    rw [stockInUpdate_of_absent s name q habs]
  · show stockOutHandler s name q = .error .indexError
    exact stockOutHandler_eq_none s name q
      (by rw [filter_name_eq_nil name s.inventory habs]; rfl)
  · exact deleteItem_of_absent s name habs

/-- Witness for C4 (amended) at a concrete store and absent name. -/
theorem missingName_behavior_witness :
    adjustStock glovesStore "Mask" 1 .dirIn = .ok glovesStore
    ∧ adjustStock glovesStore "Mask" 1 .dirOut = .error .indexError
    ∧ deleteItem glovesStore "Mask" = glovesStore :=
  missingName_behavior glovesStore "Mask" 1 (by decide)

/-- C5 counterexample: the submit handler itself applies no numeric
validation — invoked with currentStock = −1 it inserts the row instead of
failing with a validation error, so a negative stock value is persisted. -/
theorem addItem_no_numeric_validation_counterexample :
    addItem emptyStore "Gloves" "Lab" "" "" "" "" (-1) 5 "个"
      = .ok { inventory := [mkItem "Gloves" "Lab" "" "" "" "" (-1) 5 "个"],
              categories := [] }
    ∧ (mkItem "Gloves" "Lab" "" "" "" "" (-1) 5 "个").currentStock < 0 :=
  ⟨rfl, by decide⟩

/-- C5 amended: non-negativity of the stock fields is enforced by the
`number_input(min_value=0)` widgets, not by the submit handler; for every
widget-reachable input (natural-number stock values), a successful add
keeps all stored stocks non-negative, and every row bearing the new name
has non-negative current and safe stock. -/
theorem addItemWidget_nonneg (s : Store) (n c b i sp l : String) (cu sa : Nat) (u : String)
    (s' : Store) (hok : addItemWidget s n c b i sp l cu sa u = .ok s')
    (hs : stocksNonNeg s) :
    stocksNonNeg s'
    ∧ ∀ it ∈ s'.inventory, it.name = n → 0 ≤ it.currentStock ∧ 0 ≤ it.safeStock := by
  unfold addItemWidget addItem at hok
  by_cases h1 : n = ""
  · rw [if_pos h1] at hok
    cases hok
  · rw [if_neg h1] at hok
    by_cases h2 : (s.inventory.map Item.name).contains n = true
    · rw [if_pos h2] at hok
      cases hok
    · rw [if_neg h2] at hok
      injection hok with h
      subst h
      constructor
      · intro it hit
        rcases List.mem_append.mp hit with hold | hnew
        · exact hs it hold
        · rw [List.mem_singleton] at hnew
          subst hnew
          exact Int.natCast_nonneg cu
      · intro it hit hname
        rcases List.mem_append.mp hit with hold | hnew
        · exact absurd (hname ▸ List.mem_map_of_mem Item.name hold)
            (fun hm => h2 (List.elem_iff.mpr hm))
        · rw [List.mem_singleton] at hnew
          subst hnew
          exact ⟨Int.natCast_nonneg cu, Int.natCast_nonneg sa⟩

/-- Witness for C5 (amended): adding Gloves through the widgets on the
empty store yields a store whose stocks are all non-negative. -/
theorem addItemWidget_nonneg_witness :
    stocksNonNeg { inventory := [glovesItem], categories := [] } :=
  (addItemWidget_nonneg emptyStore "Gloves" "Lab" "" "" "" "" 10 5 "个"
    { inventory := [glovesItem], categories := [] } rfl (by decide)).1

/-- C7: from any store whose item names are unique (the schema's UNIQUE
constraint) and whose stocks are all non-negative, every state reachable
by a sequence of user actions again has every `current_stock ≥ 0`; in
particular no withdrawal drives a stock below zero. -/
theorem stocksNonNeg_reachable (s : Store) (ops : List Op)
    (hnd : itemNamesUnique s) (hnn : stocksNonNeg s) :
    stocksNonNeg (applyOps s ops) :=
  (invariants_applyOps s ops hnd hnn).2

/-- Witness for C7: the spec's scenario — withdraw 6 then try to withdraw
20 from Gloves (stock 10) — ends with all stocks non-negative. -/
theorem stocksNonNeg_reachable_witness :
    stocksNonNeg (applyOps glovesStore
      [Op.opAdjust "Gloves" 6 Direction.dirOut, Op.opAdjust "Gloves" 20 Direction.dirOut]) :=
  stocksNonNeg_reachable glovesStore
    [Op.opAdjust "Gloves" 6 Direction.dirOut, Op.opAdjust "Gloves" 20 Direction.dirOut]
    (by decide) (by decide)

/-- C8: adding a category fails when the entered name is empty or already
present — an exact, case-sensitive comparison of the raw input, with no
trimming — leaving the table unchanged; otherwise it appends the name.
Adding the same name twice therefore fails the second time with the list
holding the name exactly once, and every handler keeps category names
unique. -/
theorem addCategory_validation (s : Store) (name : String) :
    ((name = "" ∨ name ∈ s.categories) → addCategory s name = .error .validationError)
    ∧ (name ≠ "" → name ∉ s.categories →
        addCategory s name = .ok { s with categories := s.categories ++ [name] })
    ∧ (∀ s', addCategory s name = .ok s' →
        addCategory s' name = .error .validationError
        ∧ (name ∉ s.categories → s'.categories.count name = 1))
    ∧ (∀ op : Op, catNamesUnique s → catNamesUnique (applyOp s op)) := by
  refine ⟨?_, ?_, ?_, fun op hnd => catNamesUnique_applyOp s op hnd⟩
  · rintro (h1 | h2)
    · rw [addCategory, if_neg]
      intro hcond
      exact hcond.1 h1
    · rw [addCategory, if_neg]
      intro hcond
      exact hcond.2 (List.elem_iff.mpr h2)
  · intro h1 h2
    rw [addCategory, if_pos ⟨h1, fun hc => h2 (List.elem_iff.mp hc)⟩]
  · intro s' hok
    unfold addCategory at hok
    by_cases hcond : name ≠ "" ∧ ¬ s.categories.contains name = true
    · rw [if_pos hcond] at hok
      injection hok with h
      subst h
      constructor
      · rw [addCategory, if_neg]
        intro hcond'
        exact hcond'.2 (List.elem_iff.mpr
          (List.mem_append.mpr (Or.inr (List.mem_singleton_self name))))
      · intro hnm
        show (s.categories ++ [name]).count name = 1
        rw [List.count_append, List.count_eq_zero.mpr hnm]
        simp
    · rw [if_neg hcond] at hok
      cases hok

/-- Witness for C8: the spec's scenario — add "Reagents" twice; the
second call fails with the validation error and the table holds
"Reagents" exactly once. -/
theorem addCategory_validation_witness :
    addCategory { inventory := [], categories := ["Reagents"] } "Reagents"
      = .error .validationError
    ∧ List.count "Reagents" ["Reagents"] = 1 :=
  have h := (addCategory_validation emptyStore "Reagents").2.2.1
    { inventory := [], categories := ["Reagents"] } rfl
  ⟨h.1, h.2 (by decide)⟩
